import Mathlib

/-!
Shallow embedding of `src/app.py` (GT Operating Parameters dashboard).

Timestamps are modelled as natural numbers counting seconds; an hour is
3600 seconds, so `t / 3600` is pandas' `floor` of a timestamp to the hour
and `t % 3600 = 0` says the timestamp lies exactly on an hour boundary.
Numeric cells are `Option ℚ` (`none` models a NaN cell), string cells that
can be missing are `Option String`.
-/

namespace GTParams

/-- One row of the unified table after loading: the derived `Datetime`
(seconds), the numeric measurement column `Meas/TotCountrRdg   _`, the
`CharactstcUnit` unit-label column, and the
`Description of measuring point` channel column. -/
structure Row where
  datetime : Nat
  meas : Option ℚ
  unitLabel : Option String
  desc : String
deriving DecidableEq, Repr

/-- One row of the normalized (resampled) frame: a grid timestamp, the
measurement value after interpolation, and the unit-label column (not
interpolated, so possibly missing at synthetic timestamps). -/
structure GridRow where
  datetime : Nat
  meas : Option ℚ
  unitLabel : Option String
deriving DecidableEq, Repr

instance : Inhabited GridRow := ⟨⟨0, none, none⟩⟩

/-- `df.drop_duplicates(subset='Datetime')` with the default
`keep='first'`: walk the rows in order, keeping a row only when its
`Datetime` has not been seen yet. -/
def dedupAux (seen : List Nat) : List Row → List Row
  | [] => []
  | r :: rs =>
      if r.datetime ∈ seen then dedupAux seen rs
      else r :: dedupAux (r.datetime :: seen) rs

/-- `df.drop_duplicates(subset='Datetime')` (line 43 of `src/app.py`). -/
def dedupByDatetime (rows : List Row) : List Row := dedupAux [] rows

/-- Minimum of the `Datetime` column (`df.index.min()` used implicitly by
`resample`); 0 on the empty frame, where `resample` returns empty anyway. -/
def minDatetime : List Row → Nat
  | [] => 0
  | [r] => r.datetime
  | r :: rs => min r.datetime (minDatetime rs)

/-- Maximum of the `Datetime` column. -/
def maxDatetime : List Row → Nat
  | [] => 0
  | [r] => r.datetime
  | r :: rs => max r.datetime (maxDatetime rs)

/-- First hour of the resample grid: the minimum timestamp floored to the
hour (pandas `resample('h')` bins are anchored at hour boundaries). -/
def hourLo (d : List Row) : Nat := minDatetime d / 3600

/-- Last hour of the resample grid: the maximum timestamp floored to the
hour (the label of the last bin touched by the data). -/
def hourHi (d : List Row) : Nat := maxDatetime d / 3600

/-- Number of rows of the resample grid: one per hour from `hourLo` to
`hourHi` inclusive. -/
def gridLen (d : List Row) : Nat := hourHi d - hourLo d + 1

/-- `asfreq` at grid hour `h`: the (unique, after deduplication) row whose
timestamp equals the bin label `3600 * h` exactly, if any; off-boundary
rows never match and leave the grid position empty. -/
def placedRow (d : List Row) (h : Nat) : Option Row :=
  d.find? (fun r => r.datetime == 3600 * h)

/-- The numeric measurement column of the resampled frame, before
interpolation: `none` at grid positions that no original row hit. -/
def measColumn (d : List Row) : List (Option ℚ) :=
  (List.range (gridLen d)).map (fun i => (placedRow d (hourLo d + i)).bind Row.meas)

/-- The nearest known value strictly before position `i` of the column
(largest `j < i` holding a value). -/
def prevKnown (xs : List (Option ℚ)) : Nat → Option (Nat × ℚ)
  | 0 => none
  | i + 1 =>
      match xs.getD i none with
      | some v => some (i, v)
      | none => prevKnown xs i

/-- Scan `fuel` positions starting at `k` for the first known value. -/
def nextKnownAux (xs : List (Option ℚ)) : Nat → Nat → Option (Nat × ℚ)
  | _, 0 => none
  | k, fuel + 1 =>
      match xs.getD k none with
      | some v => some (k, v)
      | none => nextKnownAux xs (k + 1) fuel

/-- The nearest known value strictly after position `i` of the column. -/
def nextKnown (xs : List (Option ℚ)) (i : Nat) : Option (Nat × ℚ) :=
  nextKnownAux xs (i + 1) (xs.length - (i + 1))

/-- `Series.interpolate('linear')` at position `i`, with the pandas
defaults (`limit_direction='forward'`, no `limit_area`): a known value is
kept; a gap between two known values is filled linearly on positions; a
position after the last known value is filled with that last value
(forward extension); a position before the first known value stays NaN. -/
def interpAt (xs : List (Option ℚ)) (i : Nat) : Option ℚ :=
  match xs.getD i none with
  | some v => some v
  | none =>
      match prevKnown xs i, nextKnown xs i with
      | some (j, vj), some (k, vk) =>
          some (vj + (vk - vj) * (((i : ℚ) - (j : ℚ)) / ((k : ℚ) - (j : ℚ))))
      | some (_, vj), none => some vj
      | none, _ => none

/-- Lines 42-47 of `src/app.py`: drop duplicate timestamps (first wins),
resample onto the hourly grid with `asfreq`, then linearly interpolate
the numeric column; the non-numeric unit-label column is not interpolated. -/
def fill_missing_hours_and_interpolate (rows : List Row) : List GridRow :=
  if dedupByDatetime rows = [] then []
  else
    (List.range (gridLen (dedupByDatetime rows))).map (fun i =>
      { datetime := 3600 * (hourLo (dedupByDatetime rows) + i)
        meas := interpAt (measColumn (dedupByDatetime rows)) i
        unitLabel :=
          (placedRow (dedupByDatetime rows) (hourLo (dedupByDatetime rows) + i)).bind
            Row.unitLabel })

/-- How an `Option String` cell prints inside a Python f-string: a missing
cell is the float NaN and prints as `nan`. -/
def formatUnit : Option String → String
  | none => "nan"
  | some u => u

/-- The one failure of the post-load pipeline: `.iloc[0]` on an empty
frame (the spec's `EmptyInputError`). -/
inductive PipelineError
  | emptyInputError
deriving DecidableEq, Repr

/-- The post-load slice of `update_output` (lines 144-157 of
`src/app.py`): filter the unified table to the selected channel,
normalize, and build the chart title
`f"Data for {selected_description} ({connected_df['CharactstcUnit'].iloc[0]})"`.
`iloc[0]` on an empty normalized frame raises (modelled as
`EmptyInputError`). -/
def update_output (df : List Row) (selectedDescription : String) :
    Except PipelineError String :=
  match (fill_missing_hours_and_interpolate
      (df.filter (fun r => r.desc == selectedDescription))).head? with
  | none => Except.error PipelineError.emptyInputError
  | some g =>
      Except.ok ("Data for " ++ selectedDescription ++ " (" ++ formatUnit g.unitLabel ++ ")")

/-! ## Loader (`load_data`, lines 16-39 of `src/app.py`) -/

/-- One raw spreadsheet row before timestamp derivation: the `Date` cell
(modelled as a day index, since the date column coerces to a parseable
`YYYY-MM-DD` string), the `Measurement time` cell as raw text, and the
remaining columns. -/
structure RawRow where
  dateDay : Nat
  timeStr : String
  desc : String
  meas : Option ℚ
  unitLabel : Option String
deriving DecidableEq, Repr

/-- Loader failures: `parseError` models the exception of
`pd.to_datetime(..., format="%H:%M:%S")` on a non-matching time value;
`concatError` models the `ValueError` of `pd.concat([])` when the file
list is empty. -/
inductive LoadError
  | parseError
  | concatError
deriving DecidableEq, Repr

/-- Value of a decimal digit character, if it is one. -/
def digitVal (c : Char) : Option Nat :=
  if c.isDigit then some (c.toNat - 48) else none

/-- Parse one `strptime` numeric field: one or two digits, greedily. -/
def parseField : List Char → Option (Nat × List Char)
  | [] => none
  | c :: rest =>
      match digitVal c with
      | none => none
      | some d1 =>
          match rest with
          | [] => some (d1, [])
          | c2 :: rest2 =>
              match digitVal c2 with
              | some d2 => some (10 * d1 + d2, rest2)
              | none => some (d1, rest)

/-- `strptime` with format `%H:%M:%S`: hour, minute, second fields of one
or two digits separated by colons, consuming the whole string, with
`%H < 24`, `%M < 60`, `%S < 62` (strptime admits leap seconds). -/
def parseTime (s : String) : Option (Nat × Nat × Nat) :=
  match parseField s.data with
  | none => none
  | some (h, rest1) =>
      match rest1 with
      | ':' :: rest1b =>
          match parseField rest1b with
          | none => none
          | some (m, rest2) =>
              match rest2 with
              | ':' :: rest2b =>
                  match parseField rest2b with
                  | some (sec, []) =>
                      if h ≤ 23 ∧ m ≤ 59 ∧ sec ≤ 61 then some (h, m, sec) else none
                  | _ => none
              | _ => none
      | _ => none

/-- Per-row effect of lines 27-33: parse the time cell with the strict
format (failing the file on mismatch) and combine date and time into the
derived `Datetime` (seconds). -/
def parseRow (x : RawRow) : Except LoadError Row :=
  match parseTime x.timeStr with
  | none => Except.error LoadError.parseError
  | some (h, m, s) =>
      Except.ok ⟨86400 * x.dateDay + 3600 * h + 60 * m + s, x.meas, x.unitLabel, x.desc⟩

/-- The Python for-loop over a list with exception propagation: the first
failing element aborts the whole traversal. -/
def mapExcept (g : α → Except ε β) : List α → Except ε (List β)
  | [] => Except.ok []
  | x :: xs =>
      match g x with
      | Except.error e => Except.error e
      | Except.ok y =>
          match mapExcept g xs with
          | Except.error e => Except.error e
          | Except.ok ys => Except.ok (y :: ys)

/-- Parse one spreadsheet file into loaded rows; any unparseable time cell
fails the whole file. -/
def loadFile (f : List RawRow) : Except LoadError (List Row) :=
  mapExcept parseRow f

/-- Python `name.endswith(ext)`: exact, case-sensitive suffix test. -/
def endsWithExt (name ext : String) : Bool :=
  ext.data.isSuffixOf name.data

/-- Line 18: `[file for file in os.listdir(directory) if file.endswith(".XLSX")]`.
A directory is modelled as its listing: file names paired with contents. -/
def listXlsxFiles (dir : List (String × List RawRow)) : List (String × List RawRow) :=
  dir.filter (fun f => endsWithExt f.1 ".XLSX")

/-- Lines 16-39: enumerate the matching files, parse each (aborting on the
first failure), then `pd.concat(dfs)` — which raises when `dfs` is the
empty list. -/
def load_data (dir : List (String × List RawRow)) : Except LoadError (List Row) :=
  match mapExcept (fun f => loadFile f.2) (listXlsxFiles dir) with
  | Except.error e => Except.error e
  | Except.ok dfs => if dfs.isEmpty then Except.error LoadError.concatError else Except.ok dfs.flatten

/-! ## Definitions written from the spec's words, for comparison -/

/-- Modelled from the spec: ceiling of a timestamp to the hour, as used in
the spec sentence "covering exactly [floor(min_ts), ceil(max_ts)] at
one-hour steps". -/
def specCeilHour (t : Nat) : Nat := (t + 3599) / 3600

/-- Modelled from the spec: the grid of timestamps the spec claims for the
Normalizer output, one hour apart from `floor(min_ts)` to `ceil(max_ts)`. -/
def specClaimedGrid (rows : List Row) : List Nat :=
  (List.range
      (specCeilHour (maxDatetime (dedupByDatetime rows)) -
        hourLo (dedupByDatetime rows) + 1)).map
    (fun i => 3600 * (hourLo (dedupByDatetime rows) + i))

/-- Modelled from the spec: the claim that a grid position at or after the
last known value of the numeric field "remains undefined (no
extrapolation)". -/
def specNoExtrapolationAfterLast (rows : List Row) : Prop :=
  ∀ i, i < (fill_missing_hours_and_interpolate rows).length →
    (∀ k, k < (measColumn (dedupByDatetime rows)).length → i ≤ k →
        (measColumn (dedupByDatetime rows)).getD k none = none) →
    ((fill_missing_hours_and_interpolate rows).getD i default).meas = none

/-! ## Concrete example inputs -/

/-- Rows at 00:00:00 (value 10) and 02:30:00 (value 99): the second row is
off the hourly grid, so every grid position after hour 0 lacks an original
value. -/
def exTail : List Row :=
  [⟨0, some 10, some "u", "X"⟩, ⟨9000, some 99, some "u", "X"⟩]

/-- Rows at 00:00:00 and 02:30:00: min is hour-aligned, max is not. -/
def exRagged : List Row :=
  [⟨0, some 1, some "u", "X"⟩, ⟨9000, some 2, some "u", "X"⟩]

/-- Rows with value 10 at hour 0 and 20 at hour 2, nothing at hour 1. -/
def exInterp : List Row :=
  [⟨0, some 10, some "u", "X"⟩, ⟨7200, some 20, some "u", "X"⟩]

/-- A single row at 00:30:00 with unit label `bar`: its timestamp is not
hour-aligned, so the resampled frame's first row is synthetic. -/
def exOffGrid : List Row :=
  [⟨1800, some 1, some "bar", "X"⟩]

/-- A single row at 00:00:00 with unit label `degC`. -/
def exAligned : List Row :=
  [⟨0, some 1, some "degC", "X"⟩]

/-- Two rows sharing timestamp 0 with different values, and a later row. -/
def exDup : List Row :=
  [⟨0, some 1, some "u", "X"⟩, ⟨0, some 2, some "u", "X"⟩, ⟨3600, some 3, some "u", "X"⟩]

/-- A directory with one matching file holding one well-formed row. -/
def exGoodDir : List (String × List RawRow) :=
  [("DATA.XLSX", [⟨0, "01:02:03", "X", some 5, some "u"⟩])]

/-- A directory with one matching file holding a bad time cell. -/
def exBadDir : List (String × List RawRow) :=
  [("DATA.XLSX", [⟨0, "99:99:99", "X", some 5, some "u"⟩])]

/-- A directory whose only file has a lowercase extension. -/
def exLowerDir : List (String × List RawRow) :=
  [("data.xlsx", [⟨0, "01:02:03", "X", some 5, some "u"⟩])]

/-! ## Helper lemmas about the embedding -/

theorem dedup_ne_nil (rows : List Row) (h : rows ≠ []) : dedupByDatetime rows ≠ [] := by
  cases rows with
  | nil => exact absurd rfl h
  | cons r rs => simp [dedupByDatetime, dedupAux]

theorem mem_of_mem_dedupAux (rows : List Row) (g : Row) :
    ∀ seen : List Nat, g ∈ dedupAux seen rows → g ∈ rows := by
  induction rows with
  | nil => intro seen h; simp [dedupAux] at h
  | cons r rs ih =>
    intro seen h
    by_cases hm : r.datetime ∈ seen
    · simp only [dedupAux, if_pos hm] at h
      exact List.mem_cons_of_mem r (ih _ h)
    · simp only [dedupAux, if_neg hm, List.mem_cons] at h
      rcases h with h | h
      · exact h ▸ List.mem_cons_self r rs
      · exact List.mem_cons_of_mem r (ih _ h)

theorem dedupAux_find? (t : Nat) (rows : List Row) :
    ∀ seen : List Nat, t ∉ seen →
      (dedupAux seen rows).find? (fun r => r.datetime == t) =
        rows.find? (fun r => r.datetime == t) := by
  induction rows with
  | nil => intro seen _; rfl
  | cons r rs ih =>
    intro seen hts
    by_cases hm : r.datetime ∈ seen
    · have hne : r.datetime ≠ t := by rintro rfl; exact hts hm
      rw [dedupAux, if_pos hm, ih seen hts, List.find?_cons_of_neg]
      simpa using hne
    · rw [dedupAux, if_neg hm]
      by_cases heq : r.datetime = t
      · rw [List.find?_cons_of_pos, List.find?_cons_of_pos] <;> simpa using heq
      · rw [List.find?_cons_of_neg, List.find?_cons_of_neg, ih]
        · simp only [List.mem_cons, not_or]
          exact ⟨fun h => heq h.symm, hts⟩
        · simpa using heq
        · simpa using heq

theorem dedup_find? (t : Nat) (rows : List Row) :
    (dedupByDatetime rows).find? (fun r => r.datetime == t) =
      rows.find? (fun r => r.datetime == t) := by
  rw [dedupByDatetime, dedupAux_find? t rows [] (by simp)]

theorem minDatetime_le (d : List Row) (r : Row) (h : r ∈ d) :
    minDatetime d ≤ r.datetime := by
  induction d with
  | nil => cases h
  | cons x xs ih =>
    cases xs with
    | nil =>
      rcases List.mem_cons.mp h with h1 | h1
      · subst h1; simp [minDatetime]
      · cases h1
    | cons y ys =>
      rcases List.mem_cons.mp h with h1 | h1
      · subst h1; simp only [minDatetime]; exact min_le_left _ _
      · exact le_trans (min_le_right _ _) (ih h1)

theorem le_maxDatetime (d : List Row) (r : Row) (h : r ∈ d) :
    r.datetime ≤ maxDatetime d := by
  induction d with
  | nil => cases h
  | cons x xs ih =>
    cases xs with
    | nil =>
      rcases List.mem_cons.mp h with h1 | h1
      · subst h1; simp [maxDatetime]
      · cases h1
    | cons y ys =>
      rcases List.mem_cons.mp h with h1 | h1
      · subst h1; simp only [maxDatetime]; exact le_max_left _ _
      · exact le_trans (ih h1) (le_max_right _ _)

theorem getD_map_range {α : Type} (g : Nat → α) (d : α) (n i : Nat) (h : i < n) :
    ((List.range n).map g).getD i d = g i := by
  rw [List.getD_eq_getElem?_getD]
  simp [List.getElem?_map, List.getElem?_range h]

theorem fill_eq (rows : List Row) (h : dedupByDatetime rows ≠ []) :
    fill_missing_hours_and_interpolate rows =
      (List.range (gridLen (dedupByDatetime rows))).map (fun i =>
        { datetime := 3600 * (hourLo (dedupByDatetime rows) + i)
          meas := interpAt (measColumn (dedupByDatetime rows)) i
          unitLabel :=
            (placedRow (dedupByDatetime rows) (hourLo (dedupByDatetime rows) + i)).bind
              Row.unitLabel }) := by
  rw [fill_missing_hours_and_interpolate, if_neg h]

theorem fill_length (rows : List Row) (h : dedupByDatetime rows ≠ []) :
    (fill_missing_hours_and_interpolate rows).length = gridLen (dedupByDatetime rows) := by
  rw [fill_eq rows h]; simp

theorem fill_ne_nil (rows : List Row) (h : dedupByDatetime rows ≠ []) :
    fill_missing_hours_and_interpolate rows ≠ [] := by
  have hl := fill_length rows h
  intro h0
  rw [h0] at hl
  simp only [List.length_nil, gridLen] at hl
  omega

theorem dedup_ne_nil_of_fill_mem (rows : List Row) (g : GridRow)
    (hg : g ∈ fill_missing_hours_and_interpolate rows) : dedupByDatetime rows ≠ [] := by
  intro h0
  rw [fill_missing_hours_and_interpolate, if_pos h0] at hg
  cases hg

theorem measColumn_length (d : List Row) : (measColumn d).length = gridLen d := by
  simp [measColumn]

theorem measColumn_getD (d : List Row) (i : Nat) (h : i < gridLen d) :
    (measColumn d).getD i none = (placedRow d (hourLo d + i)).bind Row.meas := by
  unfold measColumn
  exact getD_map_range _ _ _ _ h

theorem prevKnown_eq_none (xs : List (Option ℚ)) (i : Nat)
    (h : ∀ j, j < i → xs.getD j none = none) : prevKnown xs i = none := by
  induction i with
  | zero => rfl
  | succ k ih =>
    rw [prevKnown, h k (Nat.lt_succ_self k)]
    exact ih (fun j hj => h j (Nat.lt_succ_of_lt hj))

theorem prevKnown_eq_some (xs : List (Option ℚ)) (j : Nat) (v : ℚ)
    (hj : xs.getD j none = some v) :
    ∀ i, (∀ k, j < k → k < i → xs.getD k none = none) → j < i →
      prevKnown xs i = some (j, v) := by
  intro i
  induction i with
  | zero => intro _ h; cases h
  | succ k ih =>
    intro hbet hji
    by_cases hk : j = k
    · subst hk; rw [prevKnown, hj]
    · have hjk : j < k := by omega
      rw [prevKnown, hbet k hjk (Nat.lt_succ_self k)]
      exact ih (fun m hm1 hm2 => hbet m hm1 (Nat.lt_succ_of_lt hm2)) hjk

theorem nextKnownAux_eq_none (xs : List (Option ℚ)) :
    ∀ (fuel start : Nat), (∀ k, start ≤ k → xs.getD k none = none) →
      nextKnownAux xs start fuel = none := by
  intro fuel
  induction fuel with
  | zero => intro start _; rfl
  | succ f ih =>
    intro start h
    rw [nextKnownAux, h start le_rfl]
    exact ih (start + 1) (fun k hk => h k (by omega))

theorem nextKnown_eq_none (xs : List (Option ℚ)) (i : Nat)
    (h : ∀ k, i < k → xs.getD k none = none) : nextKnown xs i = none :=
  nextKnownAux_eq_none xs _ (i + 1) (fun k hk => h k (by omega))

theorem interpAt_known (xs : List (Option ℚ)) (i : Nat) (v : ℚ)
    (h : xs.getD i none = some v) : interpAt xs i = some v := by
  rw [interpAt, h]

theorem interpAt_before_first (xs : List (Option ℚ)) (i : Nat)
    (h : ∀ j, j ≤ i → xs.getD j none = none) : interpAt xs i = none := by
  rw [interpAt, h i le_rfl, prevKnown_eq_none xs i (fun j hj => h j (Nat.le_of_lt hj))]

theorem interpAt_gap (xs : List (Option ℚ)) (i j k : Nat) (vj vk : ℚ)
    (hi : xs.getD i none = none) (hp : prevKnown xs i = some (j, vj))
    (hn : nextKnown xs i = some (k, vk)) :
    interpAt xs i = some (vj + (vk - vj) * (((i : ℚ) - (j : ℚ)) / ((k : ℚ) - (j : ℚ)))) := by
  rw [interpAt, hi, hp, hn]

theorem interpAt_after_last (xs : List (Option ℚ)) (j : Nat) (v : ℚ) (i : Nat)
    (hj : xs.getD j none = some v) (hafter : ∀ k, j < k → xs.getD k none = none)
    (hji : j < i) : interpAt xs i = some v := by
  rw [interpAt, hafter i hji,
    prevKnown_eq_some xs j v hj i (fun k hk1 _ => hafter k hk1) hji,
    nextKnown_eq_none xs i (fun k hk => hafter k (by omega))]

theorem placedRow_at (rows : List Row) (t : Nat) (r : Row)
    (hfind : rows.find? (fun x => x.datetime == t) = some r)
    (h : Nat) (ht : 3600 * h = t) :
    placedRow (dedupByDatetime rows) h = some r := by
  unfold placedRow
  rw [show (fun x : Row => x.datetime == 3600 * h) = (fun x : Row => x.datetime == t) by
    rw [ht]]
  rw [dedup_find?]
  exact hfind

theorem out_value_at (rows : List Row) (t : Nat) (r : Row) (v : ℚ)
    (hfind : rows.find? (fun x => x.datetime == t) = some r) (hv : r.meas = some v) :
    ∀ g ∈ fill_missing_hours_and_interpolate rows, g.datetime = t → g.meas = some v := by
  intro g hg hgt
  have hd : dedupByDatetime rows ≠ [] := dedup_ne_nil_of_fill_mem rows g hg
  rw [fill_eq rows hd] at hg
  simp only [List.mem_map, List.mem_range] at hg
  obtain ⟨i, hilt, hgi⟩ := hg
  subst hgi
  have ht : 3600 * (hourLo (dedupByDatetime rows) + i) = t := hgt
  show interpAt (measColumn (dedupByDatetime rows)) i = some v
  have hcol : (measColumn (dedupByDatetime rows)).getD i none = some v := by
    rw [measColumn_getD _ _ hilt, placedRow_at rows t r hfind _ ht]
    simp [hv]
  exact interpAt_known _ _ _ hcol

theorem out_exists_at (rows : List Row) (t : Nat) (r : Row) (v : ℚ)
    (hfind : rows.find? (fun x => x.datetime == t) = some r)
    (halign : t % 3600 = 0) (hv : r.meas = some v) :
    ∃ g ∈ fill_missing_hours_and_interpolate rows, g.datetime = t ∧ g.meas = some v := by
  have hfd : (dedupByDatetime rows).find? (fun x => x.datetime == t) = some r := by
    rw [dedup_find?]; exact hfind
  have hrd : r ∈ dedupByDatetime rows := List.mem_of_find?_eq_some hfd
  have hrt : r.datetime = t := by
    have := List.find?_some hfd
    simpa using this
  have hd : dedupByDatetime rows ≠ [] := by
    intro h0; rw [h0] at hrd; cases hrd
  have h1 : minDatetime (dedupByDatetime rows) ≤ t := hrt ▸ minDatetime_le _ r hrd
  have h2 : t ≤ maxDatetime (dedupByDatetime rows) := hrt ▸ le_maxDatetime _ r hrd
  have hlo : hourLo (dedupByDatetime rows) ≤ t / 3600 := Nat.div_le_div_right h1
  have hhi : t / 3600 ≤ hourHi (dedupByDatetime rows) := Nat.div_le_div_right h2
  have hlt : t / 3600 - hourLo (dedupByDatetime rows) < gridLen (dedupByDatetime rows) := by
    unfold gridLen; omega
  have ht : 3600 * (hourLo (dedupByDatetime rows) +
      (t / 3600 - hourLo (dedupByDatetime rows))) = t := by
    have h3 : hourLo (dedupByDatetime rows) +
        (t / 3600 - hourLo (dedupByDatetime rows)) = t / 3600 := by omega
    rw [h3, Nat.mul_div_cancel' (Nat.dvd_of_mod_eq_zero halign)]
  rw [fill_eq rows hd]
  refine ⟨_, List.mem_map_of_mem _ (List.mem_range.mpr hlt), ht, ?_⟩
  show interpAt (measColumn (dedupByDatetime rows)) _ = some v
  have hcol : (measColumn (dedupByDatetime rows)).getD
      (t / 3600 - hourLo (dedupByDatetime rows)) none = some v := by
    rw [measColumn_getD _ _ hlt, placedRow_at rows t r hfind _ ht]
    simp [hv]
  exact interpAt_known _ _ _ hcol

theorem fill_head? (rows : List Row) (h : dedupByDatetime rows ≠ []) :
    (fill_missing_hours_and_interpolate rows).head? = some
      { datetime := 3600 * (hourLo (dedupByDatetime rows) + 0)
        meas := interpAt (measColumn (dedupByDatetime rows)) 0
        unitLabel :=
          (placedRow (dedupByDatetime rows) (hourLo (dedupByDatetime rows) + 0)).bind
            Row.unitLabel } := by
  rw [fill_eq rows h]
  rw [show gridLen (dedupByDatetime rows) =
    (hourHi (dedupByDatetime rows) - hourLo (dedupByDatetime rows)) + 1 from rfl]
  rw [List.range_succ_eq_map]
  simp

/-! ## Helper lemmas about the loader traversal -/

theorem mapExcept_ok_of_forall {α β ε : Type} (g : α → Except ε β) (l : List α)
    (h : ∀ x ∈ l, ∃ y, g x = Except.ok y) :
    ∃ ys, mapExcept g l = Except.ok ys ∧ ys.length = l.length := by
  induction l with
  | nil => exact ⟨[], rfl, rfl⟩
  | cons x xs ih =>
    obtain ⟨y, hy⟩ := h x (List.mem_cons_self x xs)
    obtain ⟨ys, hys, hlen⟩ := ih (fun a ha => h a (List.mem_cons_of_mem x ha))
    exact ⟨y :: ys, by rw [mapExcept, hy, hys], by simp [hlen]⟩

theorem mapExcept_error_of_exists {α β ε : Type} (g : α → Except ε β) (e0 : ε) (l : List α)
    (hall : ∀ x e, g x = Except.error e → e = e0)
    (hex : ∃ x ∈ l, ∃ e, g x = Except.error e) :
    mapExcept g l = Except.error e0 := by
  induction l with
  | nil => simp at hex
  | cons x xs ih =>
    rcases hex with ⟨a, ha, e, hae⟩
    rcases List.mem_cons.mp ha with h1 | h1
    · subst h1
      rw [mapExcept, hae, hall a e hae]
    · cases hgx : g x with
      | error e2 => rw [mapExcept, hgx, hall x e2 hgx]
      | ok y => rw [mapExcept, hgx, ih ⟨a, h1, e, hae⟩]

theorem mapExcept_error_eq {α β ε : Type} (g : α → Except ε β) (e0 : ε)
    (hall : ∀ x e, g x = Except.error e → e = e0) :
    ∀ (l : List α) (e : ε), mapExcept g l = Except.error e → e = e0 := by
  intro l
  induction l with
  | nil => intro e h; simp [mapExcept] at h
  | cons x xs ih =>
    intro e h
    rw [mapExcept] at h
    cases hgx : g x with
    | error e2 =>
      simp only [hgx] at h
      simp only [Except.error.injEq] at h
      exact h.symm.trans (hall x e2 hgx)
    | ok y =>
      simp only [hgx] at h
      cases hxs : mapExcept g xs with
      | error e3 =>
        simp only [hxs, Except.error.injEq] at h
        exact h ▸ ih e3 hxs
      | ok ys => simp [hxs] at h

theorem parseRow_error (x : RawRow) (e : LoadError)
    (h : parseRow x = Except.error e) : e = LoadError.parseError := by
  rw [parseRow] at h
  cases hp : parseTime x.timeStr with
  | none =>
    simp only [hp, Except.error.injEq] at h
    exact h.symm
  | some v =>
    obtain ⟨a, b, c⟩ := v
    simp [hp] at h

theorem parseRow_ok (x : RawRow) (h : (parseTime x.timeStr).isSome) :
    ∃ y, parseRow x = Except.ok y := by
  obtain ⟨v, hv⟩ := Option.isSome_iff_exists.mp h
  obtain ⟨a, b, c⟩ := v
  exact ⟨_, by rw [parseRow, hv]⟩

theorem parseRow_bad (x : RawRow) (h : parseTime x.timeStr = none) :
    parseRow x = Except.error LoadError.parseError := by
  rw [parseRow, h]

theorem loadFile_error (f : List RawRow) (e : LoadError)
    (h : loadFile f = Except.error e) : e = LoadError.parseError :=
  mapExcept_error_eq parseRow LoadError.parseError parseRow_error f e h

theorem loadFile_ok (f : List RawRow) (h : ∀ x ∈ f, (parseTime x.timeStr).isSome) :
    ∃ ys, loadFile f = Except.ok ys ∧ ys.length = f.length :=
  mapExcept_ok_of_forall parseRow f (fun x hx => parseRow_ok x (h x hx))

theorem loadFile_bad (f : List RawRow) (hex : ∃ x ∈ f, parseTime x.timeStr = none) :
    loadFile f = Except.error LoadError.parseError := by
  obtain ⟨x, hx, hbad⟩ := hex
  exact mapExcept_error_of_exists parseRow LoadError.parseError f parseRow_error
    ⟨x, hx, LoadError.parseError, parseRow_bad x hbad⟩

theorem load_data_of_mapExcept_ok (dir : List (String × List RawRow)) (ys : List (List Row))
    (h : mapExcept (fun f => loadFile f.2) (listXlsxFiles dir) = Except.ok ys) :
    load_data dir =
      if ys.isEmpty then Except.error LoadError.concatError else Except.ok ys.flatten := by
  rw [load_data, h]

/-! ## Claim theorems -/

/-- C7 (confirmed): given numeric value 10 at hour 0 and 20 at hour 2 with
hour 1 missing, the Normalizer produces exactly 15 at hour 1, by linear
interpolation between the nearest known values. -/
theorem interp_midpoint_value :
    (fill_missing_hours_and_interpolate exInterp).map GridRow.meas =
      [some 10, some 15, some 20] := by
  have hd : dedupByDatetime exInterp ≠ [] := by decide
  have hcol : measColumn (dedupByDatetime exInterp) = [some 10, none, some 20] := by decide
  have h0 : interpAt (measColumn (dedupByDatetime exInterp)) 0 = some 10 :=
    interpAt_known _ _ _ (by rw [hcol]; rfl)
  have h2 : interpAt (measColumn (dedupByDatetime exInterp)) 2 = some 20 :=
    interpAt_known _ _ _ (by rw [hcol]; rfl)
  have h1 : interpAt (measColumn (dedupByDatetime exInterp)) 1 = some 15 := by
    rw [interpAt_gap (measColumn (dedupByDatetime exInterp)) 1 0 2 10 20
      (by rw [hcol]; rfl) (by rw [hcol]; rfl) (by rw [hcol]; rfl)]
    norm_num
  rw [fill_eq exInterp hd, show gridLen (dedupByDatetime exInterp) = 3 from by decide,
    show List.range 3 = [0, 1, 2] from by decide]
  simp [h0, h1, h2]

/-- C10 (confirmed): the Loader enumerates exactly the files whose names
end in the uppercase string `.XLSX`; a lowercase `.xlsx` name is silently
ignored while its uppercase counterpart is matched. -/
theorem xlsx_filter_case_sensitive :
    (∀ (dir : List (String × List RawRow)) (f : String × List RawRow),
        f ∈ listXlsxFiles dir ↔ f ∈ dir ∧ endsWithExt f.1 ".XLSX" = true)
  ∧ endsWithExt "report.xlsx" ".XLSX" = false
  ∧ endsWithExt "REPORT.XLSX" ".XLSX" = true := by
  refine ⟨?_, by decide, by decide⟩
  intro dir f
  simp [listXlsxFiles, List.mem_filter]

/-- C2 (confirmed): a filtered series with zero rows makes the pipeline
fail with `EmptyInputError` (the `.iloc[0]` on the empty normalized
frame), and a filtered series with at least one row never raises this
error. -/
theorem empty_series_error (df : List Row) (sel : String) :
    (df.filter (fun r => r.desc == sel) = [] →
      update_output df sel = Except.error PipelineError.emptyInputError)
  ∧ (df.filter (fun r => r.desc == sel) ≠ [] →
      update_output df sel ≠ Except.error PipelineError.emptyInputError) := by
  constructor
  · intro h
    rw [update_output, h]
    rfl
  · intro h
    have hd := dedup_ne_nil _ h
    cases hh : (fill_missing_hours_and_interpolate
        (df.filter (fun r => r.desc == sel))).head? with
    | none => exact absurd (List.head?_eq_none_iff.mp hh) (fill_ne_nil _ hd)
    | some g =>
      rw [update_output, hh]
      simp

/-- C2 witness: the empty table errors; a one-row series does not. -/
theorem empty_series_error_witness :
    update_output ([] : List Row) "X" = Except.error PipelineError.emptyInputError ∧
    update_output exAligned "X" ≠ Except.error PipelineError.emptyInputError :=
  ⟨(empty_series_error [] "X").1 rfl, (empty_series_error exAligned "X").2 (by decide)⟩

/-- C4 counterexample: on a directory with no matching spreadsheet files
the Loader does not return an empty unified table — `pd.concat` of an
empty list of frames raises, so the load fails. -/
theorem loader_empty_dir_fails :
    load_data [] = Except.error LoadError.concatError := rfl

/-- C4 (corrected): the Loader returns the unified table when the
directory holds at least one matching, fully parseable spreadsheet file;
with zero matching files the load fails (concatenating an empty list of
tables raises) instead of returning an empty table. -/
theorem loader_contract (dir : List (String × List RawRow)) :
    (listXlsxFiles dir = [] → load_data dir = Except.error LoadError.concatError)
  ∧ (listXlsxFiles dir ≠ [] →
      (∀ f ∈ listXlsxFiles dir, ∀ x ∈ f.2, (parseTime x.timeStr).isSome) →
      ∃ rows, load_data dir = Except.ok rows) := by
  constructor
  · intro h
    rw [load_data, h]
    rfl
  · intro hne hgood
    have hok : ∀ f ∈ listXlsxFiles dir, ∃ ys, loadFile f.2 = Except.ok ys := by
      intro f hf
      obtain ⟨ys, h1, _⟩ := loadFile_ok f.2 (hgood f hf)
      exact ⟨ys, h1⟩
    obtain ⟨ys, hys, hlen⟩ := mapExcept_ok_of_forall (fun f => loadFile f.2) (listXlsxFiles dir) hok
    rw [load_data_of_mapExcept_ok dir ys hys]
    cases ys with
    | nil => exact absurd (List.length_eq_zero.mp hlen.symm) hne
    | cons y ys2 => exact ⟨_, rfl⟩

/-- C4 witness: a directory whose only file has a lowercase extension has
zero matching files and fails; a directory with one well-formed `.XLSX`
file loads successfully. -/
theorem loader_contract_witness :
    load_data exLowerDir = Except.error LoadError.concatError ∧
    ∃ rows, load_data exGoodDir = Except.ok rows :=
  ⟨(loader_contract exLowerDir).1 (by decide),
    (loader_contract exGoodDir).2 (by decide) (by decide)⟩

/-- C8 (confirmed): if any enumerated file contains a time value not
matching the strict `%H:%M:%S` format, the whole load fails with
`ParseError` (partial results discarded); if every time value matches, no
`ParseError` is raised. -/
theorem parse_error_propagation (dir : List (String × List RawRow)) :
    ((∃ f ∈ listXlsxFiles dir, ∃ x ∈ f.2, parseTime x.timeStr = none) →
      load_data dir = Except.error LoadError.parseError)
  ∧ ((∀ f ∈ listXlsxFiles dir, ∀ x ∈ f.2, (parseTime x.timeStr).isSome) →
      load_data dir ≠ Except.error LoadError.parseError) := by
  constructor
  · intro hex
    obtain ⟨f, hf, x, hx, hbad⟩ := hex
    have hmap : mapExcept (fun f => loadFile f.2) (listXlsxFiles dir) =
        Except.error LoadError.parseError :=
      mapExcept_error_of_exists _ _ _ (fun a e he => loadFile_error a.2 e he)
        ⟨f, hf, LoadError.parseError, loadFile_bad f.2 ⟨x, hx, hbad⟩⟩
    rw [load_data, hmap]
  · intro hgood
    have hok : ∀ f ∈ listXlsxFiles dir, ∃ ys, loadFile f.2 = Except.ok ys := by
      intro f hf
      obtain ⟨ys, h1, _⟩ := loadFile_ok f.2 (hgood f hf)
      exact ⟨ys, h1⟩
    obtain ⟨ys, hys, _⟩ := mapExcept_ok_of_forall (fun f => loadFile f.2) (listXlsxFiles dir) hok
    rw [load_data_of_mapExcept_ok dir ys hys]
    split <;> simp

/-- C8 witness: a directory with a `99:99:99` time cell fails with
`ParseError`; a well-formed directory does not. -/
theorem parse_error_propagation_witness :
    load_data exBadDir = Except.error LoadError.parseError ∧
    load_data exGoodDir ≠ Except.error LoadError.parseError :=
  ⟨(parse_error_propagation exBadDir).1 (by decide),
    (parse_error_propagation exGoodDir).2 (by decide)⟩

/-- C9 (confirmed): a row whose timestamp lies exactly on an hour boundary
and survives deduplication (it is the first row carrying its timestamp)
keeps its known measurement value unchanged in the output at that
timestamp: interpolation only fills missing grid positions and never
overwrites a known value. -/
theorem known_value_preserved (rows : List Row) (t : Nat) (r : Row) (v : ℚ)
    (hfind : rows.find? (fun x => x.datetime == t) = some r)
    (halign : t % 3600 = 0) (hv : r.meas = some v) :
    (∃ g ∈ fill_missing_hours_and_interpolate rows, g.datetime = t ∧ g.meas = some v)
  ∧ (∀ g ∈ fill_missing_hours_and_interpolate rows, g.datetime = t → g.meas = some v) :=
  ⟨out_exists_at rows t r v hfind halign hv, out_value_at rows t r v hfind hv⟩

/-- C9 witness: the hour-aligned row of `exAligned` keeps its value 1. -/
theorem known_value_preserved_witness :
    (∃ g ∈ fill_missing_hours_and_interpolate exAligned, g.datetime = 0 ∧ g.meas = some 1)
  ∧ (∀ g ∈ fill_missing_hours_and_interpolate exAligned,
      g.datetime = 0 → g.meas = some 1) :=
  known_value_preserved exAligned 0 ⟨0, some 1, some "degC", "X"⟩ 1 (by decide) rfl rfl

/-- C6 (confirmed): when two or more rows share a timestamp with different
values, only the first such row's value can appear in the output at that
timestamp: every output row at that timestamp carries the first row's
value, and when the shared timestamp is hour-aligned such an output row
exists; all later rows with that timestamp are discarded. -/
theorem dedup_first_wins (rows : List Row) (t : Nat) (r r2 : Row) (v v2 : ℚ)
    (hfind : rows.find? (fun x => x.datetime == t) = some r)
    (hv : r.meas = some v)
    (_hr2 : r2 ∈ rows) (_ht2 : r2.datetime = t) (_hv2 : r2.meas = some v2)
    (_hne : v2 ≠ v) :
    (∀ g ∈ fill_missing_hours_and_interpolate rows, g.datetime = t → g.meas = some v)
  ∧ (t % 3600 = 0 →
      ∃ g ∈ fill_missing_hours_and_interpolate rows, g.datetime = t ∧ g.meas = some v) :=
  ⟨out_value_at rows t r v hfind hv, fun halign => out_exists_at rows t r v hfind halign hv⟩

/-- C6 witness: in `exDup` the two rows at timestamp 0 carry values 1 and
2; the output at timestamp 0 carries only the first value 1. -/
theorem dedup_first_wins_witness :
    (∀ g ∈ fill_missing_hours_and_interpolate exDup, g.datetime = 0 → g.meas = some 1)
  ∧ (0 % 3600 = 0 →
      ∃ g ∈ fill_missing_hours_and_interpolate exDup, g.datetime = 0 ∧ g.meas = some 1) :=
  dedup_first_wins exDup 0 ⟨0, some 1, some "u", "X"⟩ ⟨0, some 2, some "u", "X"⟩ 1 2
    (by decide) rfl (by decide) rfl rfl (by decide)

/-- C1 counterexample: in `exTail` the numeric field is known only at grid
position 0 (the row at 02:30:00 is off the hourly grid); the claim that
grid positions at or after the last known value remain undefined fails —
position 2 holds the forward-filled value 10. -/
theorem no_extrapolation_fails : ¬ specNoExtrapolationAfterLast exTail := by
  intro h
  have h2 := h 2 (by decide) (by decide)
  rw [show ((fill_missing_hours_and_interpolate exTail).getD 2 default).meas = some 10
    from by decide] at h2
  simp at h2

/-- C1 (corrected): grid positions before the first known value of the
numeric field remain undefined (no backward fill), but grid positions
after the last known value are filled with that last known value (forward
extension under pandas' default `limit_direction='forward'`) rather than
remaining undefined. -/
theorem interpolation_directionality (rows : List Row) (i : Nat)
    (hi : i < (fill_missing_hours_and_interpolate rows).length) :
    ((∀ j, j ≤ i → (measColumn (dedupByDatetime rows)).getD j none = none) →
      ((fill_missing_hours_and_interpolate rows).getD i default).meas = none)
  ∧ (∀ j v, (measColumn (dedupByDatetime rows)).getD j none = some v →
      (∀ k, k < (measColumn (dedupByDatetime rows)).length → j < k →
        (measColumn (dedupByDatetime rows)).getD k none = none) →
      j < i →
      ((fill_missing_hours_and_interpolate rows).getD i default).meas = some v) := by
  have hd : dedupByDatetime rows ≠ [] := by
    intro h0
    rw [fill_missing_hours_and_interpolate, if_pos h0] at hi
    simp at hi
  have hlen : i < gridLen (dedupByDatetime rows) := by
    rw [fill_length rows hd] at hi
    exact hi
  have hgd : (fill_missing_hours_and_interpolate rows).getD i default =
      { datetime := 3600 * (hourLo (dedupByDatetime rows) + i)
        meas := interpAt (measColumn (dedupByDatetime rows)) i
        unitLabel :=
          (placedRow (dedupByDatetime rows) (hourLo (dedupByDatetime rows) + i)).bind
            Row.unitLabel } := by
    rw [fill_eq rows hd]
    exact getD_map_range _ _ _ _ hlen
  constructor
  · intro hbefore
    rw [hgd]
    exact interpAt_before_first _ _ hbefore
  · intro j v hj hafter hji
    rw [hgd]
    refine interpAt_after_last _ j v i hj ?_ hji
    intro k hk
    by_cases hkl : k < (measColumn (dedupByDatetime rows)).length
    · exact hafter k hkl hk
    · exact List.getD_eq_default _ _ (le_of_not_lt hkl)

/-- C1 witness: in `exTail` the value 10 known at grid position 0 is
forward-filled into position 2. -/
theorem interpolation_directionality_witness :
    ((fill_missing_hours_and_interpolate exTail).getD 2 default).meas = some 10 :=
  (interpolation_directionality exTail 2 (by decide)).2 0 10 (by decide) (by decide)
    (by decide)

/-- C3 counterexample: for rows at 00:00:00 and 02:30:00 the output grid
is the three hours 0h, 1h, 2h, while the claimed range
[floor(min_ts), ceil(max_ts)] would also include 3h: the output does not
cover the claimed grid. -/
theorem grid_ceil_fails :
    (fill_missing_hours_and_interpolate exRagged).map GridRow.datetime ≠
      specClaimedGrid exRagged := by decide

/-- C3 (corrected): for every non-empty filtered series the Normalizer
output has strictly increasing timestamps spaced exactly one hour apart
with no duplicates, covering exactly [floor(min_ts), floor(max_ts)] at
one-hour steps — the grid ends at the floor of the maximum timestamp, not
its ceiling. -/
theorem hourly_grid_structure (rows : List Row) (h : rows ≠ []) :
    ((fill_missing_hours_and_interpolate rows).map GridRow.datetime).head? =
        some (3600 * hourLo (dedupByDatetime rows))
  ∧ ((fill_missing_hours_and_interpolate rows).map GridRow.datetime).getLast? =
        some (3600 * hourHi (dedupByDatetime rows))
  ∧ List.Chain' (fun a b => b = a + 3600)
        ((fill_missing_hours_and_interpolate rows).map GridRow.datetime)
  ∧ List.Pairwise (fun a b => a < b)
        ((fill_missing_hours_and_interpolate rows).map GridRow.datetime) := by
  have hd : dedupByDatetime rows ≠ [] := dedup_ne_nil rows h
  have hts : (fill_missing_hours_and_interpolate rows).map GridRow.datetime =
      (List.range (gridLen (dedupByDatetime rows))).map
        (fun i => 3600 * (hourLo (dedupByDatetime rows) + i)) := by
    rw [fill_eq rows hd, List.map_map]
    rfl
  have hlohi : hourLo (dedupByDatetime rows) ≤ hourHi (dedupByDatetime rows) := by
    obtain ⟨r, rs, hcons⟩ := List.exists_cons_of_ne_nil hd
    have hrmem : r ∈ dedupByDatetime rows := by rw [hcons]; exact List.mem_cons_self r rs
    exact Nat.div_le_div_right
      (le_trans (minDatetime_le _ r hrmem) (le_maxDatetime _ r hrmem))
  have hsucc : gridLen (dedupByDatetime rows) =
      (hourHi (dedupByDatetime rows) - hourLo (dedupByDatetime rows)) + 1 := rfl
  refine ⟨?_, ?_, ?_, ?_⟩
  · rw [hts, hsucc, List.range_succ_eq_map]
    simp
  · rw [hts, List.getLast?_eq_getElem?]
    have hlen : ((List.range (gridLen (dedupByDatetime rows))).map
        (fun i => 3600 * (hourLo (dedupByDatetime rows) + i))).length =
        gridLen (dedupByDatetime rows) := by simp
    rw [hlen]
    have hidx : gridLen (dedupByDatetime rows) - 1 < gridLen (dedupByDatetime rows) := by
      rw [hsucc]; omega
    rw [List.getElem?_map, List.getElem?_range hidx]
    have harith : hourLo (dedupByDatetime rows) + (gridLen (dedupByDatetime rows) - 1) =
        hourHi (dedupByDatetime rows) := by
      rw [hsucc]; omega
    rw [Option.map_some', harith]
  · rw [hts, List.chain'_map, hsucc, List.chain'_range_succ]
    intro m _
    omega
  · rw [hts, List.pairwise_map]
    refine List.Pairwise.imp ?_ (List.pairwise_lt_range (gridLen (dedupByDatetime rows)))
    intro a b hab
    omega

/-- C3 witness: the grid structure of the ragged example, whose grid runs
from hour 0 to hour 2. -/
theorem hourly_grid_structure_witness :
    ((fill_missing_hours_and_interpolate exRagged).map GridRow.datetime).head? =
        some (3600 * hourLo (dedupByDatetime exRagged))
  ∧ ((fill_missing_hours_and_interpolate exRagged).map GridRow.datetime).getLast? =
        some (3600 * hourHi (dedupByDatetime exRagged))
  ∧ List.Chain' (fun a b => b = a + 3600)
        ((fill_missing_hours_and_interpolate exRagged).map GridRow.datetime)
  ∧ List.Pairwise (fun a b => a < b)
        ((fill_missing_hours_and_interpolate exRagged).map GridRow.datetime) :=
  hourly_grid_structure exRagged (by decide)

theorem update_output_of_head (df : List Row) (sel : String) (g : GridRow)
    (hh : (fill_missing_hours_and_interpolate
        (df.filter (fun r => r.desc == sel))).head? = some g) :
    update_output df sel =
      Except.ok ("Data for " ++ sel ++ " (" ++ formatUnit g.unitLabel ++ ")") := by
  rw [update_output, hh]

/-- C5 counterexample: for a series whose earliest timestamp 00:30:00 is
not hour-aligned, the end-to-end computation succeeds, yet the rendered
title shows the NaN placeholder instead of the data's unit label `bar`. -/
theorem title_nan_unit :
    update_output exOffGrid "X" = Except.ok "Data for X (nan)" ∧
    ¬ ("bar".data <:+: "Data for X (nan)".data) := by
  constructor
  · rfl
  · decide

/-- C5 (corrected): the rendered chart title always contains the selected
channel name; it contains the channel's unit label provided the earliest
deduplicated timestamp lies exactly on an hour boundary and the first
surviving row at that timestamp carries a unit label — otherwise the
unit slot of the title holds the NaN placeholder instead. -/
theorem title_contains_labels (df : List Row) (sel : String) (r : Row) (u : String)
    (hflt : df.filter (fun x => x.desc == sel) ≠ [])
    (hfind : (dedupByDatetime (df.filter (fun x => x.desc == sel))).find?
        (fun x => x.datetime ==
          3600 * hourLo (dedupByDatetime (df.filter (fun x => x.desc == sel)))) = some r)
    (hu : r.unitLabel = some u) :
    update_output df sel = Except.ok ("Data for " ++ sel ++ " (" ++ u ++ ")")
  ∧ sel.data <:+: ("Data for " ++ sel ++ " (" ++ u ++ ")").data
  ∧ u.data <:+: ("Data for " ++ sel ++ " (" ++ u ++ ")").data := by
  have hd : dedupByDatetime (df.filter (fun x => x.desc == sel)) ≠ [] :=
    dedup_ne_nil _ hflt
  have hput : placedRow (dedupByDatetime (df.filter (fun x => x.desc == sel)))
      (hourLo (dedupByDatetime (df.filter (fun x => x.desc == sel))) + 0) = some r := by
    rw [Nat.add_zero]
    exact hfind
  have hul : ((placedRow (dedupByDatetime (df.filter (fun x => x.desc == sel)))
      (hourLo (dedupByDatetime (df.filter (fun x => x.desc == sel))) + 0)).bind
        Row.unitLabel) = some u := by
    rw [hput]
    exact hu
  refine ⟨?_, ?_, ?_⟩
  · rw [update_output_of_head df sel _ (fill_head? (df.filter (fun x => x.desc == sel)) hd)]
    show Except.ok ("Data for " ++ sel ++ " (" ++
      formatUnit ((placedRow (dedupByDatetime (df.filter (fun x => x.desc == sel)))
        (hourLo (dedupByDatetime (df.filter (fun x => x.desc == sel))) + 0)).bind
          Row.unitLabel) ++ ")") = _
    rw [hul]
    rfl
  · exact ⟨"Data for ".data, (" (" ++ u ++ ")").data, by simp [String.data_append]⟩
  · exact ⟨("Data for " ++ sel ++ " (").data, ")".data, by simp [String.data_append]⟩

/-- C5 witness: the hour-aligned single-row series renders its unit label
`degC` in the title. -/
theorem title_contains_labels_witness :
    update_output exAligned "X" = Except.ok ("Data for " ++ "X" ++ " (" ++ "degC" ++ ")")
  ∧ "X".data <:+: ("Data for " ++ "X" ++ " (" ++ "degC" ++ ")").data
  ∧ "degC".data <:+: ("Data for " ++ "X" ++ " (" ++ "degC" ++ ")").data :=
  title_contains_labels exAligned "X" ⟨0, some 1, some "degC", "X"⟩ "degC"
    (by decide) (by decide) rfl

end GTParams
